import Mathlib

/-!
Verification of the PCRS → Airtable synchronization script (`src/sync.py`).

The script reconciles two in-memory tables — one fetched from the Airtable
API and one parsed from a CSV export of PCRS — keyed by a configurable pivot
column.  We embed the tabular data model and the three reconciliation passes
(`synchronize_different_records`, `synchronize_missing_records`,
`synchronize_deleted_records`), the paginated fetch (`get_airtable_data`),
the CSV fetch (`get_csv_export_data`), the layered configuration merge, and
the control flow of the orchestrator, and prove the testable properties
about them.

Cell values are modelled as `Option String`: `none` stands for a missing
value (pandas `NaN`), `some s` for a present scalar (scalars are kept
abstract as strings; only equality of values matters to the script).
-/

set_option autoImplicit false

namespace Sync

/-- A cell value: `none` models pandas `NaN` / a missing field. -/
abbrev Value := Option String

/-- A row of a DataFrame, as a total map from column name to cell value
(absent columns read as `none`, matching pandas reindexing semantics). -/
abbrev Row := String → Value

/-- pandas element-wise equality (`DataFrame.eq`): a missing value (`NaN`)
compares unequal to everything, including another missing value. -/
def pandasEq (a b : Value) : Bool :=
  match a, b with
  | some x, some y => x == y
  | _, _ => false

/-- The list of pivot-column values of a table (`df[PIVOT_COLUMN]`). -/
def pivotValues (pivot : String) (t : List Row) : List Value :=
  t.map (fun r => r pivot)

/-- `pcrs_df.loc[v]` after `set_index(PIVOT_COLUMN)`: the first row of the
table whose pivot value is `v` (pivot values are assumed unique per table,
a documented precondition of the script). -/
def findByPivot (pivot : String) (t : List Row) (v : Value) : Option Row :=
  t.find? (fun r => r pivot == v)

/-- A PATCH request issued to `airtable_base_url/<record_id>`:
the target record id and the `fields` dict of the payload. -/
structure UpdateRequest where
  recordId : Value
  fields : List (String × Value)
  deriving DecidableEq

/-- Whether a matched pair of rows differs on at least one compared column:
`~df[COLUMNS_TO_CHECK].eq(other[COLUMNS_TO_CHECK]).all(axis=1)`. -/
def rowDiffers (cols : List String) (arow prow : Row) : Bool :=
  ! cols.all (fun c => pandasEq (arow c) (prow c))

/-- The update request generated for one Airtable row in the loop body of
`synchronize_different_records` (lines 155-166): look up the matching PCRS
row by pivot, and if any compared column differs, PATCH the Airtable record
with the PCRS values of exactly the compared columns. -/
def updateForRow (pivot : String) (cols : List String) (pcrs : List Row)
    (arow : Row) : Option UpdateRequest :=
  match findByPivot pivot pcrs (arow pivot) with
  | none => none
  | some prow =>
    if rowDiffers cols arow prow then
      some ⟨arow "airtable_record_id", cols.map (fun c => (c, prow c))⟩
    else
      none

/-- `synchronize_different_records` (sync.py lines 117-173): restrict the
Airtable table to rows whose pivot value occurs in the PCRS table, match
each with the PCRS row of the same pivot value, and emit a PATCH request
for every pair with a differing compared column.  Returns the list of
update requests issued, in iteration order.  (The pandas `align` step
assumes unique pivot values; we model the match as first-by-pivot.) -/
def synchronize_different_records (pivot : String) (cols : List String)
    (airtable pcrs : List Row) : List UpdateRequest :=
  (airtable.filter
      (fun r => (pivotValues pivot pcrs).contains (r pivot))).filterMap
    (updateForRow pivot cols pcrs)

/-- Python dict assignment `d[k] = v`: overwrite the value at `k` if the key
is present, otherwise append the pair. -/
def dictInsert (d : List (String × Value)) (k : String) (v : Value) :
    List (String × Value) :=
  if d.any (fun kv => kv.1 == k) then
    d.map (fun kv => if kv.1 == k then (k, v) else kv)
  else
    d ++ [(k, v)]

/-- Python dict lookup `d[k]` as an option: value of the first pair with key
`k`. -/
def dictLookup (d : List (String × Value)) (k : String) : Option Value :=
  (d.find? (fun kv => kv.1 == k)).map Prod.snd

/-- A POST request to `airtable_base_url` creating one record: the
`fields` dict. -/
structure CreateRequest where
  fields : List (String × Value)
  deriving DecidableEq

/-- The create request built for one missing PCRS row (sync.py lines
198-211): `data = row[COLUMNS_TO_CHECK].to_dict()` then
`data[PIVOT_COLUMN] = row[PIVOT_COLUMN]`. -/
def createForRow (pivot : String) (cols : List String) (row : Row) :
    CreateRequest :=
  ⟨dictInsert (cols.map (fun c => (c, row c))) pivot (row pivot)⟩

/-- `synchronize_missing_records` (sync.py lines 176-221): for every PCRS
row whose pivot value does not occur in the Airtable table, POST a new
record carrying the compared columns plus the pivot column.  Returns the
list of create requests issued, in iteration order. -/
def synchronize_missing_records (pivot : String) (cols : List String)
    (airtable pcrs : List Row) : List CreateRequest :=
  (pcrs.filter
      (fun r => ! (pivotValues pivot airtable).contains (r pivot))).map
    (createForRow pivot cols)

/-- `synchronize_deleted_records` (sync.py lines 224-248): compute the
Airtable rows whose pivot value does not occur in the PCRS table, and print
`deleted_records.head()` when non-empty.  Returns the pair
(all such rows, the rows actually surfaced in the printed output) — pandas
`DataFrame.head()` shows only the first 5 rows.  The function issues no
HTTP request. -/
def synchronize_deleted_records (pivot : String)
    (airtable pcrs : List Row) : List Row × List Row :=
  let deleted := airtable.filter
    (fun r => ! (pivotValues pivot pcrs).contains (r pivot))
  (deleted, if deleted.isEmpty then [] else deleted.take 5)

/-! ### Airtable pagination (`get_airtable_data`, sync.py lines 34-82) -/

/-- One record of an Airtable API response: its `fields` object and its
opaque record `id`. -/
structure AirtableRecord where
  fields : String → Value
  id : Value

/-- One page of the Airtable list endpoint: the `records` array and the
optional continuation token `offset`. -/
structure AirtablePage where
  records : List AirtableRecord
  offset : Option String

/-- Python truthiness of the continuation token read with
`response_data.get("offset")`: absent (`None`) and the empty string are
falsy, any other string is truthy. -/
def truthy : Option String → Bool
  | none => false
  | some s => ! (s == "")

/-- The row built from one Airtable record (sync.py lines 74-77):
the fields of the record, with `airtable_record_id` set to the record id. -/
def recordToRow (rec : AirtableRecord) : Row :=
  fun k => if k == "airtable_record_id" then rec.id else rec.fields k

/-- The accumulation loop of `get_airtable_data` (sync.py lines 52-68),
fuel-indexed: starting at page `i` of the response sequence of the server,
append the records of each page and continue while the returned `offset` is
truthy.  `none` means the given fuel was exhausted before a final page. -/
def fetchPages (pages : Nat → AirtablePage) : Nat → Nat → Option (List AirtableRecord)
  | 0, _ => none
  | fuel + 1, i =>
    if truthy (pages i).offset then
      (fetchPages pages fuel (i + 1)).map
        (fun rest => (pages i).records ++ rest)
    else
      some (pages i).records

/-- `get_airtable_data`: run the pagination loop from the first page and
convert every accumulated record to a DataFrame row.  The server is
modelled as the sequence of pages it returns; `fuel` bounds the number of
loop iterations, `none` meaning the loop has not terminated within it. -/
def get_airtable_data (pages : Nat → AirtablePage) (fuel : Nat) :
    Option (List Row) :=
  (fetchPages pages fuel 0).map (List.map recordToRow)

/-! ### CSV export fetch and the orchestrator (sync.py lines 85-114 and
252-275) -/

/-- The value returned by `get_csv_export_data`: the parsed table on
success, or — despite the documented `pd.DataFrame` return type — a plain
error string when the HTTP status is not 200. -/
inductive FetchResult where
  | table : List Row → FetchResult
  | errorMessage : String → FetchResult

/-- `get_csv_export_data` (sync.py lines 85-114): on a non-200 status
return the error string, otherwise the parsed CSV table. -/
def get_csv_export_data (status : Nat) (body : List Row) : FetchResult :=
  if status != 200 then
    FetchResult.errorMessage
      ("Error: Unable to download CSV file, status code " ++ toString status)
  else
    FetchResult.table body

/-- The control flow of `__main__` (sync.py lines 252-275) after the export
fetch, as the sequence of steps reached.  The script performs no check on
the export fetch result: `synchronize_different_records` is invoked either
way.  When the fetch failed, that pass receives the error string and its
first table access (`pcrs_df[PIVOT_COLUMN]`, line 136) raises a `TypeError`
(string indices must be integers), aborting the process before the
remaining passes; on success all three passes run and the completion
message is printed. -/
def main_steps (csvFetch : FetchResult) : List String :=
  match csvFetch with
  | FetchResult.errorMessage _ =>
    ["synchronize_different_records", "TypeError"]
  | FetchResult.table _ =>
    ["synchronize_different_records", "synchronize_missing_records",
     "synchronize_deleted_records", "Synchronization completed!"]

/-! ### Layered configuration (sync.py lines 8-12) -/

/-- The `config` dict: `\x7b**dotenv_values(".env.shared"),
**dotenv_values(".env"), **os.environ\x7d`.  Each layer is a partial map
from setting name to string; a binding in a later layer overrides one in
an earlier layer. -/
def config (shared secret env : String → Option String) (k : String) :
    Option String :=
  match env k with
  | some v => some v
  | none =>
    match secret k with
    | some v => some v
    | none => shared k

/-! ### The per-record write loops (sync.py lines 155-173 and 198-221) -/

/-- The shape of both write loops: issue one HTTP request per prepared
record, read the status the server assigns to that request (`status n` for
the `n`-th request), print the error line on a non-200 status and the
success line otherwise, and continue with the next record unconditionally.
Returns the (request, printed line) pairs in iteration order. -/
def runWriteLoop {α : Type} (status : Nat → Nat) (errLine okLine : String) :
    List α → Nat → List (α × String)
  | [], _ => []
  | r :: rest, n =>
    (r, if status n != 200 then errLine else okLine) ::
      runWriteLoop status errLine okLine rest (n + 1)

/-! ### Concrete test data (used by counterexamples and witnesses) -/

/-- An Airtable row whose compared column `s` is missing (`NaN`) — its
pivot is `A1` and its record id `r1`. -/
def c1arow : Row := fun k =>
  if k == "p" then some "A1"
  else if k == "airtable_record_id" then some "r1"
  else none

/-- A PCRS row with pivot `A1` whose compared column `s` is also missing. -/
def c1prow : Row := fun k => if k == "p" then some "A1" else none

/-- An Airtable row with pivot `A1`, record id `r1` and `s = open`. -/
def c1warow : Row := fun k =>
  if k == "p" then some "A1"
  else if k == "s" then some "open"
  else if k == "airtable_record_id" then some "r1"
  else none

/-- A PCRS row with pivot `A1` and `s = open`. -/
def c1wprow : Row := fun k =>
  if k == "p" then some "A1"
  else if k == "s" then some "open"
  else none

/-- An Airtable row with pivot `X9`, record id `r9` and `s = open` (its
pair differs, so it must still be updated). -/
def c1xarow : Row := fun k =>
  if k == "p" then some "X9"
  else if k == "s" then some "open"
  else if k == "airtable_record_id" then some "r9"
  else none

/-- A PCRS row with pivot `X9` and `s = closed`. -/
def c1xprow : Row := fun k =>
  if k == "p" then some "X9"
  else if k == "s" then some "closed"
  else none

/-- A PCRS row with pivot `B2` and `s = open` (and an extra column `extra`
that must be dropped on creation). -/
def c2prow : Row := fun k =>
  if k == "p" then some "B2"
  else if k == "s" then some "open"
  else if k == "extra" then some "dropme"
  else none

/-- An Airtable row with pivot `A1`, record id `r1` and `s = open`. -/
def c3arow : Row := fun k =>
  if k == "p" then some "A1"
  else if k == "s" then some "open"
  else if k == "airtable_record_id" then some "r1"
  else none

/-- A PCRS row with pivot `A1` and `s = closed`. -/
def c3prow : Row := fun k =>
  if k == "p" then some "A1"
  else if k == "s" then some "closed"
  else none

/-- An Airtable row with the given pivot value and no other field. -/
def deletedRow (n : String) : Row := fun k => if k == "p" then some n else none

/-- Six Airtable rows, none of whose pivot values occur in the export. -/
def c4rows : List Row :=
  [deletedRow "P1", deletedRow "P2", deletedRow "P3",
   deletedRow "P4", deletedRow "P5", deletedRow "P6"]

/-- An Airtable record with the given id and no fields. -/
def c6rec (n : String) : AirtableRecord := ⟨fun _ => none, some n⟩

/-- A two-page server: page 0 holds two records and a truthy offset,
every later page holds one record and no offset. -/
def c6pages : Nat → AirtablePage := fun i =>
  if i == 0 then ⟨[c6rec "a", c6rec "b"], some "tok"⟩
  else ⟨[c6rec "c"], none⟩

/-- A shared dotenv layer defining keys `A`, `B` and `C`. -/
def c8shared : String → Option String := fun k =>
  if k == "A" then some "sharedA"
  else if k == "B" then some "sharedB"
  else if k == "C" then some "sharedC"
  else none

/-- A secret dotenv layer overriding keys `A` and `B`. -/
def c8secret : String → Option String := fun k =>
  if k == "A" then some "secretA"
  else if k == "B" then some "secretB"
  else none

/-- A process environment overriding key `A` only. -/
def c8env : String → Option String := fun k =>
  if k == "A" then some "envA" else none

/-! ## Helper lemmas -/

/-- Membership in a `Value` list decided by `contains` is plain list
membership. -/
theorem contains_eq_true_iff_mem {l : List Value} {a : Value} :
    l.contains a = true ↔ a ∈ l := by
  rw [List.contains_iff_exists_mem_beq]
  constructor
  · rintro ⟨b, hb, hab⟩
    rw [beq_iff_eq.mp hab]
    exact hb
  · intro h
    exact ⟨a, h, beq_self_eq_true a⟩

/-- A successful pivot lookup returns a row of the table. -/
theorem findByPivot_mem {pivot : String} {t : List Row} {v : Value}
    {prow : Row} (h : findByPivot pivot t v = some prow) : prow ∈ t := by
  unfold findByPivot at h
  exact List.mem_of_find?_eq_some h

/-- A successful pivot lookup returns a row with the requested pivot
value. -/
theorem findByPivot_pivot {pivot : String} {t : List Row} {v : Value}
    {prow : Row} (h : findByPivot pivot t v = some prow) : prow pivot = v := by
  unfold findByPivot at h
  have hb := List.find?_some h
  exact beq_iff_eq.mp hb

/-- If a matched pair agrees on every compared column and none of those
values is missing, pandas finds no difference. -/
theorem rowDiffers_eq_false {cols : List String} {arow prow : Row}
    (h : ∀ c ∈ cols, arow c = prow c ∧ (arow c).isSome = true) :
    rowDiffers cols arow prow = false := by
  unfold rowDiffers
  rw [Bool.not_eq_false', List.all_eq_true]
  intro c hc
  obtain ⟨heq, hsome⟩ := h c hc
  cases hx : arow c with
  | none => rw [hx] at hsome; simp at hsome
  | some x =>
    rw [hx] at heq
    rw [← heq]
    simp [pandasEq]

/-! ## Claim C1 -/

/-- Claim C1, counterexample: a matched pair whose compared-field values are
identical (column `s` is missing in both tables) nevertheless receives an
update request, so re-running on unchanged data does not issue zero
updates.  The rows `c1arow` and `c1prow` share pivot `A1` and agree on the
compared column `s` (both missing), yet `synchronize_different_records`
issues one PATCH. -/
theorem C1_counterexample :
    c1arow "p" = c1prow "p" ∧
    c1arow "s" = c1prow "s" ∧
    synchronize_different_records "p" ["s"] [c1arow] [c1prow] =
      [⟨some "r1", [("s", none)]⟩] :=
  ⟨rfl, rfl, rfl⟩

/-- Claim C1, amended, per pair: for every PCRS table and every Airtable
row `arow` whose matched PCRS row `prow` (same pivot value) has identical
and present compared-field values — no compared field missing, in
particular none missing from both sides — the loop body issues no update
request for that pair, and splicing `arow` anywhere into an Airtable
table (whose other rows may differ from their pairs arbitrarily) leaves
the output of `synchronize_different_records` exactly the requests of the
other rows; in particular, when every matched pair is in that state the
pass issues zero updates, so re-running on unchanged NaN-free data is
idempotent. -/
theorem C1_no_update_for_identical_present_pair (pivot : String)
    (cols : List String) (pcrs l1 l2 : List Row) (arow prow : Row)
    (hfind : findByPivot pivot pcrs (arow pivot) = some prow)
    (hid : ∀ c ∈ cols, arow c = prow c ∧ (arow c).isSome = true) :
    updateForRow pivot cols pcrs arow = none ∧
    synchronize_different_records pivot cols (l1 ++ arow :: l2) pcrs =
      synchronize_different_records pivot cols l1 pcrs ++
        synchronize_different_records pivot cols l2 pcrs ∧
    ∀ airtable : List Row,
      (∀ brow ∈ airtable, ∀ qrow,
        findByPivot pivot pcrs (brow pivot) = some qrow →
        ∀ c ∈ cols, brow c = qrow c ∧ (brow c).isSome = true) →
      synchronize_different_records pivot cols airtable pcrs = [] := by
  have hnone : updateForRow pivot cols pcrs arow = none := by
    unfold updateForRow
    rw [hfind]
    have hdiff : rowDiffers cols arow prow = false := rowDiffers_eq_false hid
    simp [hdiff]
  refine ⟨hnone, ?_, ?_⟩
  · have hcont : (pivotValues pivot pcrs).contains (arow pivot) = true := by
      rw [contains_eq_true_iff_mem]
      exact List.mem_map.mpr ⟨prow, findByPivot_mem hfind,
        findByPivot_pivot hfind⟩
    unfold synchronize_different_records
    rw [List.filter_append, List.filter_cons, hcont]
    simp only [if_true]
    rw [List.filterMap_append, List.filterMap_cons_none hnone]
  · intro airtable h
    unfold synchronize_different_records
    rw [List.filterMap_eq_nil_iff]
    intro brow hmem
    rw [List.mem_filter] at hmem
    obtain ⟨hb, _⟩ := hmem
    unfold updateForRow
    cases hbfind : findByPivot pivot pcrs (brow pivot) with
    | none => rfl
    | some qrow =>
      have hdiff : rowDiffers cols brow qrow = false :=
        rowDiffers_eq_false (h brow hb qrow hbfind)
      simp [hdiff]

/-- Claim C1 witness: with PCRS rows `A1` (`s = open`) and `X9`
(`s = closed`), the Airtable pair for `A1` (`c1warow`, identical present
value `s = open`) produces no request even though the `X9` pair
(`c1xarow`, `open` vs `closed`) differs: the output over both rows is
exactly the output over the `X9` row alone, and on a table whose every
pair is identical and present the pass issues zero updates. -/
theorem C1_witness :
    findByPivot "p" [c1wprow, c1xprow] (c1warow "p") = some c1wprow ∧
    (∀ c ∈ ["s"], c1warow c = c1wprow c ∧ (c1warow c).isSome = true) ∧
    (updateForRow "p" ["s"] [c1wprow, c1xprow] c1warow = none ∧
     synchronize_different_records "p" ["s"] ([c1xarow] ++ c1warow :: [])
         [c1wprow, c1xprow] =
       synchronize_different_records "p" ["s"] [c1xarow]
           [c1wprow, c1xprow] ++
         synchronize_different_records "p" ["s"] []
           [c1wprow, c1xprow] ∧
     ∀ airtable : List Row,
       (∀ brow ∈ airtable, ∀ qrow,
         findByPivot "p" [c1wprow, c1xprow] (brow "p") = some qrow →
         ∀ c ∈ ["s"], brow c = qrow c ∧ (brow c).isSome = true) →
       synchronize_different_records "p" ["s"] airtable
         [c1wprow, c1xprow] = []) := by
  have hid : ∀ c ∈ ["s"], c1warow c = c1wprow c ∧
      (c1warow c).isSome = true := by
    intro c hc
    rw [List.mem_singleton] at hc
    subst hc
    exact ⟨rfl, rfl⟩
  exact ⟨rfl, hid, C1_no_update_for_identical_present_pair "p" ["s"]
    [c1wprow, c1xprow] [c1xarow] [] c1warow c1wprow rfl hid⟩

/-! ## Claim C9 -/

/-- Claim C9: a matched pair whose value for some compared column is
missing in both tables counts as differing for that column, so the pair is
selected for update and an update request carrying the PCRS values of the
compared columns is issued for it (on every run, even when no present
value differs). -/
theorem C9_both_missing_is_update (pivot : String) (cols : List String)
    (airtable pcrs : List Row) (arow prow : Row) (c : String)
    (ha : arow ∈ airtable)
    (hfind : findByPivot pivot pcrs (arow pivot) = some prow)
    (hc : c ∈ cols) (hanan : arow c = none) (hpnan : prow c = none) :
    UpdateRequest.mk (arow "airtable_record_id")
        (cols.map (fun x => (x, prow x))) ∈
      synchronize_different_records pivot cols airtable pcrs := by
  unfold synchronize_different_records
  rw [List.mem_filterMap]
  refine ⟨arow, ?_, ?_⟩
  · rw [List.mem_filter]
    refine ⟨ha, ?_⟩
    have hp : prow ∈ pcrs := findByPivot_mem hfind
    have hpe : prow pivot = arow pivot := findByPivot_pivot hfind
    rw [List.contains_iff_exists_mem_beq]
    refine ⟨prow pivot, List.mem_map.mpr ⟨prow, hp, rfl⟩, ?_⟩
    rw [hpe]
    exact beq_self_eq_true (arow pivot)
  · unfold updateForRow
    rw [hfind]
    have hdiff : rowDiffers cols arow prow = true := by
      unfold rowDiffers
      rw [Bool.not_eq_true', List.all_eq_false]
      refine ⟨c, hc, ?_⟩
      rw [hanan, hpnan]
      simp [pandasEq]
    simp [hdiff]

/-- Claim C9 witness: the concrete matched pair `c1arow` / `c1prow`
(pivot `A1`, compared column `s` missing on both sides) is selected for
update and the PATCH carrying the PCRS value of `s` is issued. -/
theorem C9_witness :
    c1arow ∈ [c1arow] ∧
    findByPivot "p" [c1prow] (c1arow "p") = some c1prow ∧
    "s" ∈ ["s"] ∧ c1arow "s" = none ∧ c1prow "s" = none ∧
    UpdateRequest.mk (c1arow "airtable_record_id")
        (["s"].map (fun x => (x, c1prow x))) ∈
      synchronize_different_records "p" ["s"] [c1arow] [c1prow] :=
  ⟨List.mem_singleton.mpr rfl, rfl, List.mem_singleton.mpr rfl, rfl, rfl,
   C9_both_missing_is_update "p" ["s"] [c1arow] [c1prow] c1arow c1prow "s"
     (List.mem_singleton.mpr rfl) rfl (List.mem_singleton.mpr rfl) rfl rfl⟩

/-! ## Claim C3 -/

/-- Claim C3: every partial-update request issued by
`synchronize_different_records` carries exactly the configured compared
columns as its field keys — never a field outside that list — and its
values for those columns are taken from the PCRS (export) row. -/
theorem C3_update_carries_only_compared (pivot : String)
    (cols : List String) (airtable pcrs : List Row) (req : UpdateRequest)
    (hreq : req ∈ synchronize_different_records pivot cols airtable pcrs) :
    req.fields.map Prod.fst = cols ∧
    ∃ prow, prow ∈ pcrs ∧ req.fields = cols.map (fun c => (c, prow c)) := by
  unfold synchronize_different_records at hreq
  rw [List.mem_filterMap] at hreq
  obtain ⟨arow, _, hupd⟩ := hreq
  unfold updateForRow at hupd
  cases hfind : findByPivot pivot pcrs (arow pivot) with
  | none => rw [hfind] at hupd; simp at hupd
  | some prow =>
    rw [hfind] at hupd
    by_cases hd : rowDiffers cols arow prow = true
    · simp only [hd, if_true] at hupd
      have hreq := Option.some.inj hupd
      rw [← hreq]
      refine ⟨?_, prow, findByPivot_mem hfind, rfl⟩
      rw [List.map_map]
      exact List.map_id cols
    · simp [hd] at hupd

/-- Claim C3 witness: on the concrete pair `c3arow` / `c3prow` (pivot
`A1`, `s` differs: `open` vs `closed`) the one PATCH issued carries
exactly the compared column `s`, with the export value `closed`. -/
theorem C3_witness :
    UpdateRequest.mk (some "r1") [("s", some "closed")] ∈
      synchronize_different_records "p" ["s"] [c3arow] [c3prow] ∧
    (UpdateRequest.mk (some "r1")
      [("s", some "closed")]).fields.map Prod.fst = ["s"] := by
  have hmem : UpdateRequest.mk (some "r1") [("s", some "closed")] ∈
      synchronize_different_records "p" ["s"] [c3arow] [c3prow] := by
    rw [show synchronize_different_records "p" ["s"] [c3arow] [c3prow] =
      [UpdateRequest.mk (some "r1") [("s", some "closed")]] from rfl]
    exact List.mem_singleton.mpr rfl
  exact ⟨hmem, (C3_update_carries_only_compared "p" ["s"] [c3arow] [c3prow]
    (UpdateRequest.mk (some "r1") [("s", some "closed")]) hmem).1⟩

/-! ## Dict lemmas (for claim C2) -/

/-- When some pair of `d` has key `k`, overwriting that key and searching
for it finds the new pair. -/
theorem find?_map_overwrite (d : List (String × Value)) (k : String)
    (v : Value) (h : d.any (fun kv => kv.1 == k) = true) :
    (d.map (fun kv => if kv.1 == k then (k, v) else kv)).find?
      (fun kv => kv.1 == k) = some (k, v) := by
  induction d with
  | nil => simp at h
  | cons hd tl ih =>
    by_cases hh : (hd.1 == k) = true
    · simp only [List.map_cons, hh, if_true]
      exact List.find?_cons_of_pos _ (beq_self_eq_true k)
    · have hh0 : (hd.1 == k) = false := Bool.eq_false_iff.mpr hh
      rw [List.any_cons, hh0, Bool.false_or] at h
      simp only [List.map_cons, hh0, Bool.false_eq_true, if_false]
      rw [@List.find?_cons_of_neg _ (fun kv => kv.1 == k) hd _ hh]
      exact ih h

/-- When no pair of `d` has key `k`, appending `(k, v)` and searching for
`k` finds the appended pair. -/
theorem find?_append_absent (d : List (String × Value)) (k : String)
    (v : Value) (h : d.any (fun kv => kv.1 == k) = false) :
    (d ++ [(k, v)]).find? (fun kv => kv.1 == k) = some (k, v) := by
  induction d with
  | nil =>
    simp only [List.nil_append]
    exact List.find?_cons_of_pos _ (beq_self_eq_true k)
  | cons hd tl ih =>
    rw [List.any_cons, Bool.or_eq_false_iff] at h
    rw [List.cons_append,
      @List.find?_cons_of_neg _ (fun kv => kv.1 == k) hd _
        (Bool.eq_false_iff.mp h.1)]
    exact ih h.2

/-- Looking up the key just written by `dictInsert` returns the written
value (Python `d[k] = v` followed by `d[k]`). -/
theorem dictLookup_dictInsert_self (d : List (String × Value)) (k : String)
    (v : Value) : dictLookup (dictInsert d k v) k = some v := by
  unfold dictInsert dictLookup
  by_cases h : d.any (fun kv => kv.1 == k) = true
  · rw [if_pos h, find?_map_overwrite d k v h]
    rfl
  · have h0 : d.any (fun kv => kv.1 == k) = false := Bool.eq_false_iff.mpr h
    rw [if_neg h, find?_append_absent d k v h0]
    rfl

/-- The key set after `dictInsert` is the old key set plus the inserted
key. -/
theorem mem_keys_dictInsert (d : List (String × Value)) (k : String)
    (v : Value) (x : String) :
    x ∈ (dictInsert d k v).map Prod.fst ↔ (x = k ∨ x ∈ d.map Prod.fst) := by
  unfold dictInsert
  by_cases h : d.any (fun kv => kv.1 == k) = true
  · rw [if_pos h, List.map_map]
    constructor
    · intro hx
      rw [List.mem_map] at hx
      obtain ⟨kv, hkv, hfx⟩ := hx
      by_cases hk : (kv.1 == k) = true
      · left
        rw [← hfx]
        simp [Function.comp, hk]
      · right
        rw [List.mem_map]
        refine ⟨kv, hkv, ?_⟩
        rw [← hfx]
        simp [Function.comp, hk]
    · intro hx
      rcases hx with hx | hx
      · rw [List.any_eq_true] at h
        obtain ⟨kv, hkv, hk⟩ := h
        rw [List.mem_map]
        exact ⟨kv, hkv, by simp [Function.comp, hk, hx]⟩
      · rw [List.mem_map] at hx ⊢
        obtain ⟨kv, hkv, hfx⟩ := hx
        refine ⟨kv, hkv, ?_⟩
        by_cases hk : (kv.1 == k) = true
        · have hk1 : kv.1 = k := beq_iff_eq.mp hk
          simp only [Function.comp, hk, if_true]
          exact hk1 ▸ hfx
        · simp only [Function.comp, Bool.eq_false_iff.mpr hk,
            Bool.false_eq_true, if_false]
          exact hfx
  · rw [if_neg h, List.map_append]
    simp only [List.mem_append, List.map_cons, List.map_nil,
      List.mem_singleton]
    exact or_comm

/-- A duplicate-free list counts each of its members exactly once under
`==`. -/
theorem countP_beq_eq_one_of_nodup {l : List Value} {v : Value}
    (hnodup : l.Nodup) (hin : v ∈ l) :
    List.countP (fun x => x == v) l = 1 := by
  induction l with
  | nil => simp at hin
  | cons a t ih =>
    rw [List.countP_cons]
    rcases List.mem_cons.mp hin with h | h
    · have hna : a ∉ t := (List.nodup_cons.mp hnodup).1
      have ht : List.countP (fun x => x == v) t = 0 := by
        rw [List.countP_eq_zero]
        intro x hx hbx
        have hxv : x = v := beq_iff_eq.mp hbx
        rw [hxv, h] at hx
        exact hna hx
      rw [ht, h, beq_self_eq_true]
      rfl
    · have hna : a ∉ t := (List.nodup_cons.mp hnodup).1
      have hav : (a == v) = false := by
        cases hb : (a == v) with
        | false => rfl
        | true => exact absurd (beq_iff_eq.mp hb ▸ h) hna
      rw [ih (List.nodup_cons.mp hnodup).2 h, hav]
      rfl

/-! ## Claim C2 -/

/-- Claim C2: for every pivot value occurring in the PCRS export but not
in Airtable (pivot values unique within the export, a documented
precondition of the script), `synchronize_missing_records` issues exactly one
create request whose `fields` pivot entry carries that value, and every
field-key set of every create request is exactly the pivot column plus the
configured compared columns — all other export columns are dropped. -/
theorem C2_missing_created_once (pivot : String) (cols : List String)
    (airtable pcrs : List Row) (v : Value)
    (hnodup : (pivotValues pivot pcrs).Nodup)
    (hin : v ∈ pivotValues pivot pcrs)
    (hout : v ∉ pivotValues pivot airtable) :
    (synchronize_missing_records pivot cols airtable pcrs).countP
        (fun req => dictLookup req.fields pivot == some v) = 1 ∧
    ∀ req ∈ synchronize_missing_records pivot cols airtable pcrs,
      ∀ k, k ∈ req.fields.map Prod.fst ↔ (k = pivot ∨ k ∈ cols) := by
  constructor
  · unfold synchronize_missing_records
    rw [List.countP_map, List.countP_filter]
    have hcount : List.countP (fun r => r pivot == v) pcrs = 1 := by
      have hc : List.countP (fun x => x == v) (pivotValues pivot pcrs)
          = List.countP (fun r => r pivot == v) pcrs := by
        rw [pivotValues, List.countP_map]
        rfl
      rw [← hc]
      exact countP_beq_eq_one_of_nodup hnodup hin
    rw [← hcount]
    apply List.countP_congr
    intro r _
    simp only [Function.comp, createForRow]
    rw [dictLookup_dictInsert_self]
    have hcf : ∀ w : Value, w = v →
        (pivotValues pivot airtable).contains w = false := by
      intro w hw
      cases hcc : (pivotValues pivot airtable).contains w with
      | false => rfl
      | true =>
        rw [hw] at hcc
        exact absurd (contains_eq_true_iff_mem.mp hcc) hout
    constructor
    · intro hb
      rw [Bool.and_eq_true] at hb
      have hsome : some (r pivot) = some v := beq_iff_eq.mp hb.1
      rw [Option.some.inj hsome]
      exact beq_self_eq_true v
    · intro hb
      have hrv : r pivot = v := beq_iff_eq.mp hb
      rw [Bool.and_eq_true]
      refine ⟨by rw [hrv]; exact beq_self_eq_true (some v), ?_⟩
      rw [hcf (r pivot) hrv]
      rfl
  · intro req hreq k
    unfold synchronize_missing_records at hreq
    rw [List.mem_map] at hreq
    obtain ⟨r, _, hr⟩ := hreq
    rw [← hr]
    unfold createForRow
    rw [mem_keys_dictInsert, List.map_map,
      show (Prod.fst ∘ fun c => (c, r c)) = id from rfl, List.map_id]

/-- Claim C2 witness: with an empty Airtable table and the one-row export
`c2prow` (pivot `B2`), exactly one create request carries pivot value
`B2`, and its field keys are exactly the pivot column plus the compared
column `s` (the `extra` export column is dropped). -/
theorem C2_witness :
    (pivotValues "p" [c2prow]).Nodup ∧
    some "B2" ∈ pivotValues "p" [c2prow] ∧
    some "B2" ∉ pivotValues "p" ([] : List Row) ∧
    (synchronize_missing_records "p" ["s"] [] [c2prow]).countP
      (fun req => dictLookup req.fields "p" == some (some "B2")) = 1 :=
  ⟨by decide, by decide, by decide,
   (C2_missing_created_once "p" ["s"] [] [c2prow] (some "B2")
     (by decide) (by decide) (by decide)).1⟩

/-! ## Claim C4 -/

/-- Claim C4, at the failing input: with six Airtable rows (pivots `P1`
to `P6`) and an empty export, all six rows are detected as missing in the
export — the function issues no write — but the printed output is
`deleted_records.head()`, which shows only the first five rows: pivot
`P6` is among the detected rows yet absent from the surfaced output,
contradicting the claim (and the docstring of the function, which says
each such record is printed). -/
theorem C4_head_truncates_report :
    ((synchronize_deleted_records "p" c4rows []).1.map
        (fun r => r "p")).contains (some "P6") = true ∧
    ((synchronize_deleted_records "p" c4rows []).1.map
        (fun r => r "p")).length = 6 ∧
    ((synchronize_deleted_records "p" c4rows []).2.map
        (fun r => r "p")).contains (some "P6") = false :=
  ⟨rfl, rfl, rfl⟩

/-! ## Claim C5 -/

/-- Claim C5, at the failing input: when the CSV export fetch returns
HTTP 500, `get_csv_export_data` returns an error string (despite its
documented `pd.DataFrame` return type), and `__main__` — which never
checks the result — still invokes `synchronize_different_records` on it;
the run then dies of a `TypeError` inside that pass instead of the
claimed orchestrator-level fatal abort that would execute none of the
passes. -/
theorem C5_no_fetch_failure_check :
    get_csv_export_data 500 [] = FetchResult.errorMessage
      "Error: Unable to download CSV file, status code 500" ∧
    main_steps (get_csv_export_data 500 []) =
      ["synchronize_different_records", "TypeError"] ∧
    "synchronize_different_records" ∈ main_steps (get_csv_export_data 500 []) :=
  ⟨rfl, rfl, List.mem_cons.mpr (Or.inl rfl)⟩

/-! ## Pagination lemmas (for claims C6 and C10) -/

/-- Splitting a `flatMap` over `range (n + 1)` into the head page and the
shifted tail. -/
theorem flatMap_range_succ {β : Type} (g : Nat → List β) (n : Nat) :
    (List.range (n + 1)).flatMap g
      = g 0 ++ (List.range n).flatMap (fun i => g (i + 1)) := by
  rw [List.range_succ_eq_map, List.flatMap_cons, List.flatMap_map]

/-- Under `n` truthy pages followed by a falsy one, the pagination loop
terminates with fuel `n + 1` and accumulates the records of pages
`start` to `start + n`, in page order. -/
theorem fetchPages_eq (pages : Nat → AirtablePage) :
    ∀ (n start : Nat),
      (∀ i, i < n → truthy (pages (start + i)).offset = true) →
      truthy (pages (start + n)).offset = false →
      fetchPages pages (n + 1) start =
        some ((List.range (n + 1)).flatMap
          (fun i => (pages (start + i)).records)) := by
  intro n
  induction n with
  | zero =>
    intro start _ hlast
    rw [Nat.add_zero] at hlast
    unfold fetchPages
    rw [hlast]
    simp only [Bool.false_eq_true, if_false]
    rw [show List.range 1 = [0] from rfl, List.flatMap_cons,
      List.flatMap_nil, List.append_nil, Nat.add_zero]
  | succ m ih =>
    intro start hall hlast
    have h0 : truthy (pages start).offset = true := by
      have h := hall 0 (Nat.zero_lt_succ m)
      rwa [Nat.add_zero] at h
    have hrec := ih (start + 1)
      (fun i hi => by
        have h := hall (i + 1) (Nat.succ_lt_succ hi)
        rwa [show start + (i + 1) = start + 1 + i by omega] at h)
      (by rwa [show start + 1 + m = start + (m + 1) by omega])
    unfold fetchPages
    rw [h0]
    simp only [if_true]
    rw [hrec, Option.map_some']
    rw [flatMap_range_succ (fun i => (pages (start + i)).records) (m + 1),
      Nat.add_zero]
    have harg : (fun i => (pages (start + 1 + i)).records)
        = fun i => (pages (start + (i + 1))).records := by
      funext i
      rw [show start + 1 + i = start + (i + 1) by omega]
    rw [harg]
    simp

/-- If the pagination loop returns within some fuel, a page at or after
the start index carried a falsy continuation token. -/
theorem fetchPages_some_falsy (pages : Nat → AirtablePage) :
    ∀ (fuel i : Nat) (r : List AirtableRecord),
      fetchPages pages fuel i = some r →
      ∃ j, i ≤ j ∧ truthy (pages j).offset = false := by
  intro fuel
  induction fuel with
  | zero =>
    intro i r h
    exact absurd h (by simp [fetchPages])
  | succ f ih =>
    intro i r h
    unfold fetchPages at h
    cases ht : truthy (pages i).offset with
    | false => exact ⟨i, Nat.le_refl i, ht⟩
    | true =>
      rw [ht] at h
      simp only [if_true] at h
      cases hrec : fetchPages pages f (i + 1) with
      | none => rw [hrec] at h; simp at h
      | some rest =>
        obtain ⟨j, hij, hj⟩ := ih (i + 1) rest hrec
        exact ⟨j, by omega, hj⟩


/-- If some page at or after the start index carries a falsy continuation
token, some fuel makes the pagination loop return. -/
theorem fetchPages_of_falsy (pages : Nat → AirtablePage) :
    ∀ (k i : Nat), truthy (pages (i + k)).offset = false →
      ∃ fuel r, fetchPages pages fuel i = some r := by
  intro k
  induction k with
  | zero =>
    intro i h
    rw [Nat.add_zero] at h
    exact ⟨1, (pages i).records, by unfold fetchPages; rw [h]; simp⟩
  | succ m ih =>
    intro i h
    cases ht : truthy (pages i).offset with
    | false =>
      exact ⟨1, (pages i).records, by unfold fetchPages; rw [ht]; simp⟩
    | true =>
      obtain ⟨f, r, hf⟩ := ih (i + 1)
        (by rwa [show i + 1 + m = i + (m + 1) by omega])
      exact ⟨f + 1, (pages i).records ++ r,
        by unfold fetchPages; rw [ht]; simp only [if_true, hf,
          Option.map_some']⟩

/-! ## Claim C6 -/

/-- Claim C6: for every server response sequence of `N` truthy-token pages
followed by a final page with a falsy or absent continuation token,
`get_airtable_data` terminates (with fuel `N + 1`) and returns a table
whose length is exactly the sum of all page record counts — every record
of every page is accumulated exactly once, in page order. -/
theorem C6_pagination_accumulates_all (pages : Nat → AirtablePage) (N : Nat)
    (hall : ∀ i, i < N → truthy (pages i).offset = true)
    (hlast : truthy (pages N).offset = false) :
    (get_airtable_data pages (N + 1)).map List.length =
      some (((List.range (N + 1)).map
        (fun i => (pages i).records.length)).sum) := by
  unfold get_airtable_data
  have heq := fetchPages_eq pages N 0
    (fun i hi => by rw [Nat.zero_add]; exact hall i hi)
    (by rw [Nat.zero_add]; exact hlast)
  rw [show (fun i => (pages (0 + i)).records)
      = fun i => (pages i).records from by
    funext i; rw [Nat.zero_add]] at heq
  rw [heq]
  simp only [Option.map_some']
  congr 1
  rw [List.length_map, List.length_flatMap]
  rfl

/-- Claim C6 witness: with the concrete two-page server `c6pages` (page 0
holds two records behind a truthy token, page 1 holds one record and no
token), the fetch terminates and the table length is the sum of the page
record counts. -/
theorem C6_witness :
    (∀ i, i < 1 → truthy (c6pages i).offset = true) ∧
    truthy (c6pages 1).offset = false ∧
    (get_airtable_data c6pages 2).map List.length =
      some (((List.range 2).map
        (fun i => (c6pages i).records.length)).sum) :=
  ⟨by decide, rfl,
   C6_pagination_accumulates_all c6pages 1 (by decide) rfl⟩

/-! ## Claim C7 -/

/-- The write loop issues every prepared request exactly once, in order,
whatever statuses the server returns. -/
theorem runWriteLoop_requests {α : Type} (status : Nat → Nat)
    (errLine okLine : String) :
    ∀ (l : List α) (n : Nat),
      (runWriteLoop status errLine okLine l n).map Prod.fst = l := by
  intro l
  induction l with
  | nil => intro n; rfl
  | cons hd tl ih =>
    intro n
    rw [show runWriteLoop status errLine okLine (hd :: tl) n =
      (hd, if status n != 200 then errLine else okLine) ::
        runWriteLoop status errLine okLine tl (n + 1) from rfl]
    rw [List.map_cons, ih (n + 1)]

/-- Claim C7: whatever HTTP statuses the server returns for the individual
PATCH and POST calls (`status` / `status2` assign a status to each call in
order), both write loops log a line per record and keep going: every
prepared request is issued exactly once, so a per-record failure never
aborts the batch, and the requests issued are the same under any two
status assignments — a failure leaves the requests of the other records
unchanged. -/
theorem C7_failure_never_aborts_batch (status status2 : Nat → Nat)
    (pivot : String) (cols : List String) (airtable pcrs : List Row) :
    ((runWriteLoop status "Error updating record"
        "Successfully updated record"
        (synchronize_different_records pivot cols airtable pcrs) 0).map
      Prod.fst = synchronize_different_records pivot cols airtable pcrs) ∧
    ((runWriteLoop status "Error creating record"
        "Successfully created record"
        (synchronize_missing_records pivot cols airtable pcrs) 0).map
      Prod.fst = synchronize_missing_records pivot cols airtable pcrs) ∧
    ((runWriteLoop status "Error updating record"
        "Successfully updated record"
        (synchronize_different_records pivot cols airtable pcrs) 0).map
      Prod.fst =
      (runWriteLoop status2 "Error updating record"
        "Successfully updated record"
        (synchronize_different_records pivot cols airtable pcrs) 0).map
      Prod.fst) := by
  refine ⟨runWriteLoop_requests status _ _ _ 0,
    runWriteLoop_requests status _ _ _ 0, ?_⟩
  rw [runWriteLoop_requests status _ _ _ 0,
    runWriteLoop_requests status2 _ _ _ 0]

/-! ## Claim C8 -/

/-- Claim C8: for every setting key, the resolved configuration takes the
value from the latest layer defining it, in the order shared dotenv file,
then secret dotenv file, then process environment (each later layer
overrides every earlier one; the script has no built-in defaults layer,
so no key is defined there and the claimed order is preserved). -/
theorem C8_later_layer_overrides (shared secret env : String → Option String)
    (k : String) (v : String) :
    (env k = some v → config shared secret env k = some v) ∧
    (env k = none → secret k = some v → config shared secret env k = some v) ∧
    (env k = none → secret k = none → config shared secret env k = shared k) := by
  refine ⟨fun h => ?_, fun h1 h2 => ?_, fun h1 h2 => ?_⟩
  · unfold config
    rw [h]
  · unfold config
    rw [h1, h2]
  · unfold config
    rw [h1, h2]

/-- Claim C8 witness: with concrete layers (`c8shared` defines `A`, `B`,
`C`; `c8secret` overrides `A`, `B`; `c8env` overrides `A`), key `A`
resolves from the environment, key `B` from the secret file, and key `C`
from the shared file. -/
theorem C8_witness :
    c8env "A" = some "envA" ∧
    config c8shared c8secret c8env "A" = some "envA" ∧
    c8env "B" = none ∧ c8secret "B" = some "secretB" ∧
    config c8shared c8secret c8env "B" = some "secretB" ∧
    c8env "C" = none ∧ c8secret "C" = none ∧
    config c8shared c8secret c8env "C" = c8shared "C" :=
  ⟨rfl, (C8_later_layer_overrides c8shared c8secret c8env "A" "envA").1 rfl,
   rfl, rfl,
   (C8_later_layer_overrides c8shared c8secret c8env "B" "secretB").2.1 rfl rfl,
   rfl, rfl,
   (C8_later_layer_overrides c8shared c8secret c8env "C" "unused").2.2 rfl rfl⟩

/-! ## Claim C10 -/

/-- Claim C10: the pagination loop of `get_airtable_data` terminates if
and only if some response in the page sequence carries a falsy or absent
continuation token; in particular, when the server eventually returns a
page without an offset, the fetch is total. -/
theorem C10_terminates_iff_falsy_token (pages : Nat → AirtablePage) :
    (∃ fuel rows, get_airtable_data pages fuel = some rows) ↔
    (∃ i, truthy (pages i).offset = false) := by
  constructor
  · rintro ⟨fuel, rows, h⟩
    unfold get_airtable_data at h
    cases hf : fetchPages pages fuel 0 with
    | none => rw [hf] at h; simp at h
    | some r =>
      obtain ⟨j, _, hj⟩ := fetchPages_some_falsy pages fuel 0 r hf
      exact ⟨j, hj⟩
  · rintro ⟨i, hi⟩
    obtain ⟨fuel, r, hf⟩ := fetchPages_of_falsy pages i 0
      (by rwa [Nat.zero_add])
    exact ⟨fuel, r.map recordToRow, by rw [get_airtable_data, hf]; rfl⟩

end Sync
